import Mathlib

/-!
Formal model of the vswitch session/relay engine, shallowly embedded from the
Rust sources (`src/protocol.rs`, `src/server.rs`).  Bytes are modelled as `Nat`
(values below 256 on real inputs), byte buffers as `List Nat`, and the two
hash maps (`clients : HashMap<SocketAddr, Client>` and
`ip_to_addr : HashMap<IpAddr, SocketAddr>`) as association lists with the
usual map operations.  Timestamps (`current_time_millis`, a `u64` of wall-clock
milliseconds) are modelled as `Nat`.
-/

namespace Vswitch

/-- Transport endpoint (`std::net::SocketAddr`), abstracted to a decidable type. -/
abbrev SocketAddr := Nat

/-- Model of `std::net::IpAddr`: an IPv4 address from four octets or an IPv6
address from its sixteen bytes. -/
inductive IpAddr where
  | v4 (a b c d : Nat)
  | v6 (bytes : List Nat)
deriving DecidableEq, Repr

/-- Message type enum from `protocol.rs` (`MessageType`). -/
inductive MessageType where
  | Connect
  | Data
  | Heartbeat
  | Disconnect
deriving DecidableEq, Repr

/-- The discriminant value of each `MessageType` (`Connect = 0x01`, … ,
`Disconnect = 0x04`), as used by `msg_type as u8` in `encode`. -/
def MessageType.toByte : MessageType → Nat
  | .Connect => 1
  | .Data => 2
  | .Heartbeat => 3
  | .Disconnect => 4

/-- Decode error cases of `VswitchError::InvalidProtocolMessage` as produced by
`Message::decode` and `MessageType::try_from`: the three distinct messages are
"消息太短" (short message), "未知的消息类型" (unknown kind, carrying the
offending byte), and "消息内容不完整" (incomplete payload). -/
inductive DecodeErr where
  | shortMessage
  | unknownKind (b : Nat)
  | incompletePayload
deriving DecidableEq, Repr

/-- `MessageType::try_from(u8)` from `protocol.rs`: bytes 1–4 map to the four
kinds, anything else is an unknown-kind error. -/
def MessageType.tryFrom (b : Nat) : Except DecodeErr MessageType :=
  if b = 1 then .ok .Connect
  else if b = 2 then .ok .Data
  else if b = 3 then .ok .Heartbeat
  else if b = 4 then .ok .Disconnect
  else .error (.unknownKind b)

/-- Protocol message from `protocol.rs` (`Message`): a kind and an opaque
payload byte sequence. -/
structure Message where
  msg_type : MessageType
  payload : List Nat
deriving DecidableEq, Repr

/-- `Message::connect()`: a `Connect` message with empty payload. -/
def Message.connect : Message := ⟨.Connect, []⟩

/-- `Message::data(payload)`: a `Data` message carrying the payload. -/
def Message.data (payload : List Nat) : Message := ⟨.Data, payload⟩

/-- `Message::heartbeat()`: a `Heartbeat` message with empty payload. -/
def Message.heartbeat : Message := ⟨.Heartbeat, []⟩

/-- Big-endian 4-byte encoding of `n as u32` (`BufMut::put_u32`). -/
def be32encode (n : Nat) : List Nat :=
  [n / 2 ^ 24 % 256, n / 2 ^ 16 % 256, n / 2 ^ 8 % 256, n % 256]

/-- Big-endian 32-bit value read from four bytes (`Buf::get_u32`). -/
def be32 (b1 b2 b3 b4 : Nat) : Nat :=
  ((b1 * 256 + b2) * 256 + b3) * 256 + b4

/-- `Message::encode` from `protocol.rs`: 1 byte kind, 4 bytes big-endian
payload length (`payload.len() as u32`), then the payload bytes. -/
def Message.encode (m : Message) : List Nat :=
  m.msg_type.toByte :: be32encode m.payload.length ++ m.payload

/-- `Message::decode` from `protocol.rs`: fails if fewer than 5 bytes remain;
reads the kind byte through `MessageType::try_from`; reads the declared
big-endian payload length; fails if fewer bytes than declared remain; else
takes exactly the declared number of payload bytes. -/
def Message.decode (buf : List Nat) : Except DecodeErr Message :=
  match buf with
  | b0 :: b1 :: b2 :: b3 :: b4 :: rest =>
    match MessageType.tryFrom b0 with
    | .error e => .error e
    | .ok t =>
      let payload_len := be32 b1 b2 b3 b4
      if rest.length < payload_len then .error .incompletePayload
      else .ok ⟨t, rest.take payload_len⟩
  | _ => .error .shortMessage

lemma tryFrom_toByte (t : MessageType) :
    MessageType.tryFrom t.toByte = .ok t := by
  cases t <;> rfl

lemma be32_be32encode (n : Nat) (h : n < 2 ^ 32) :
    be32 (n / 2 ^ 24 % 256) (n / 2 ^ 16 % 256) (n / 2 ^ 8 % 256) (n % 256) = n := by
  simp only [be32]
  omega

/-- C3: for every message whose payload length is at most `2^32 - 1`,
decoding the bytes produced by `encode` succeeds and returns the same
message (same kind, same payload bytes). -/
theorem c3_encode_decode_roundtrip (m : Message)
    (h : m.payload.length ≤ 2 ^ 32 - 1) :
    Message.decode (Message.encode m) = .ok m := by
  have hlt : m.payload.length < 2 ^ 32 := by omega
  simp only [Message.encode, be32encode, List.cons_append, List.nil_append,
    Message.decode, tryFrom_toByte, be32_be32encode m.payload.length hlt]
  rw [if_neg (by omega)]
  simp [List.take_of_length_le]

/-- Witness for C3 at a concrete `Data` message. -/
theorem c3_encode_decode_roundtrip_witness :
    Message.decode (Message.encode ⟨.Data, [10, 0, 0, 2]⟩) = .ok ⟨.Data, [10, 0, 0, 2]⟩ :=
  c3_encode_decode_roundtrip ⟨.Data, [10, 0, 0, 2]⟩ (by decide)

/-- C4: `decode` fails exactly on the three malformed cases and succeeds
otherwise: a buffer shorter than 5 bytes yields the short-message error; a
buffer of at least 5 bytes whose kind byte is among `{1,2,3,4}` but whose
declared big-endian payload length exceeds the remaining bytes yields the
incomplete-payload error; a buffer of at least 5 bytes whose kind byte is
outside `{1,2,3,4}` yields the unknown-kind error; and a buffer of at least 5
bytes with a known kind and enough remaining bytes decodes successfully. -/
theorem c4_decode_error_cases :
    (∀ buf : List Nat, buf.length < 5 →
      Message.decode buf = .error .shortMessage) ∧
    (∀ b0 b1 b2 b3 b4 : Nat, ∀ rest : List Nat,
      (b0 = 1 ∨ b0 = 2 ∨ b0 = 3 ∨ b0 = 4) →
      rest.length < be32 b1 b2 b3 b4 →
      Message.decode (b0 :: b1 :: b2 :: b3 :: b4 :: rest) =
        .error .incompletePayload) ∧
    (∀ b0 b1 b2 b3 b4 : Nat, ∀ rest : List Nat,
      ¬(b0 = 1 ∨ b0 = 2 ∨ b0 = 3 ∨ b0 = 4) →
      Message.decode (b0 :: b1 :: b2 :: b3 :: b4 :: rest) =
        .error (.unknownKind b0)) ∧
    (∀ b0 b1 b2 b3 b4 : Nat, ∀ rest : List Nat,
      (b0 = 1 ∨ b0 = 2 ∨ b0 = 3 ∨ b0 = 4) →
      be32 b1 b2 b3 b4 ≤ rest.length →
      (Message.decode (b0 :: b1 :: b2 :: b3 :: b4 :: rest)).isOk = true) := by
  refine ⟨?_, ?_, ?_, ?_⟩
  · intro buf h
    match buf, h with
    | [], _ => rfl
    | [_], _ => rfl
    | [_, _], _ => rfl
    | [_, _, _], _ => rfl
    | [_, _, _, _], _ => rfl
    | _ :: _ :: _ :: _ :: _ :: _, h => simp at h; omega
  · intro b0 b1 b2 b3 b4 rest hk hlen
    rcases hk with h | h | h | h <;> subst h <;>
      simp [Message.decode, MessageType.tryFrom, if_pos hlen]
  · intro b0 b1 b2 b3 b4 rest hk
    push_neg at hk
    obtain ⟨h1, h2, h3, h4⟩ := hk
    simp [Message.decode, MessageType.tryFrom, h1, h2, h3, h4]
  · intro b0 b1 b2 b3 b4 rest hk hlen
    rcases hk with h | h | h | h <;> subst h <;>
      simp [Message.decode, MessageType.tryFrom, Nat.not_lt.mpr hlen, Except.isOk,
        Except.toBool]

/-- Witness for C4: each of the four cases applied at a concrete buffer. -/
theorem c4_decode_error_cases_witness :
    Message.decode [1, 0] = .error .shortMessage ∧
    Message.decode [2, 0, 0, 0, 3, 9] = .error .incompletePayload ∧
    Message.decode [7, 0, 0, 0, 0] = .error (.unknownKind 7) ∧
    (Message.decode [3, 0, 0, 0, 1, 42]).isOk = true :=
  ⟨c4_decode_error_cases.1 [1, 0] (by decide),
   c4_decode_error_cases.2.1 2 0 0 0 3 [9] (by decide) (by decide),
   c4_decode_error_cases.2.2.1 7 0 0 0 0 [] (by decide),
   c4_decode_error_cases.2.2.2 3 0 0 0 1 [42] (by decide) (by decide)⟩

/-- `extract_src_ip` from `server.rs`: if the packet has at least 20 bytes and
the high nibble of byte 0 is 4, the source is the IPv4 address at bytes 12–15;
else if it has at least 40 bytes and the high nibble is 6, the source is the
IPv6 address at bytes 8–23; otherwise none. -/
def extract_src_ip (packet : List Nat) : Option IpAddr :=
  if 20 ≤ packet.length ∧ packet.getD 0 0 / 16 = 4 then
    some (.v4 (packet.getD 12 0) (packet.getD 13 0) (packet.getD 14 0) (packet.getD 15 0))
  else if 40 ≤ packet.length ∧ packet.getD 0 0 / 16 = 6 then
    some (.v6 ((packet.drop 8).take 16))
  else none

/-- `extract_dst_ip` from `server.rs`: like `extract_src_ip` but the IPv4
destination is bytes 16–19 and the IPv6 destination is bytes 24–39. -/
def extract_dst_ip (packet : List Nat) : Option IpAddr :=
  if 20 ≤ packet.length ∧ packet.getD 0 0 / 16 = 4 then
    some (.v4 (packet.getD 16 0) (packet.getD 17 0) (packet.getD 18 0) (packet.getD 19 0))
  else if 40 ≤ packet.length ∧ packet.getD 0 0 / 16 = 6 then
    some (.v6 ((packet.drop 24).take 16))
  else none

/-- C5: for every byte sequence `p`, if the high nibble of `p[0]` is 4 and
`p` has at least 20 bytes then the extracted source is the IPv4 address from
bytes 12–15 and the destination the IPv4 address from bytes 16–19; if the high
nibble is 6 and `p` has at least 40 bytes then the source is the IPv6 address
from bytes 8–23 and the destination the IPv6 address from bytes 24–39; in
every other case (the empty packet included) both extractors return none. -/
theorem c5_extract_ip_cases (p : List Nat) :
    (20 ≤ p.length → p.getD 0 0 / 16 = 4 →
      extract_src_ip p =
        some (.v4 (p.getD 12 0) (p.getD 13 0) (p.getD 14 0) (p.getD 15 0)) ∧
      extract_dst_ip p =
        some (.v4 (p.getD 16 0) (p.getD 17 0) (p.getD 18 0) (p.getD 19 0))) ∧
    (40 ≤ p.length → p.getD 0 0 / 16 = 6 →
      extract_src_ip p = some (.v6 ((p.drop 8).take 16)) ∧
      extract_dst_ip p = some (.v6 ((p.drop 24).take 16))) ∧
    (¬(20 ≤ p.length ∧ p.getD 0 0 / 16 = 4) →
     ¬(40 ≤ p.length ∧ p.getD 0 0 / 16 = 6) →
      extract_src_ip p = none ∧ extract_dst_ip p = none) := by
  refine ⟨fun h4 hn => ?_, fun h6 hn => ?_, fun h4 h6 => ?_⟩
  · rw [extract_src_ip, if_pos ⟨h4, hn⟩, extract_dst_ip, if_pos ⟨h4, hn⟩]
    exact ⟨rfl, rfl⟩
  · have hne : ¬(20 ≤ p.length ∧ p.getD 0 0 / 16 = 4) := by
      rintro ⟨-, hc⟩; rw [hn] at hc; exact absurd hc (by decide)
    rw [extract_src_ip, if_neg hne, if_pos ⟨h6, hn⟩,
      extract_dst_ip, if_neg hne, if_pos ⟨h6, hn⟩]
    exact ⟨rfl, rfl⟩
  · rw [extract_src_ip, if_neg h4, if_neg h6, extract_dst_ip, if_neg h4, if_neg h6]
    exact ⟨rfl, rfl⟩

/-- Witness for C5: a 20-byte IPv4 packet with source 10.0.0.2 and
destination 10.0.0.3, and the empty packet yielding none. -/
theorem c5_extract_ip_cases_witness :
    extract_src_ip
        [69, 0, 0, 20, 0, 0, 0, 0, 64, 0, 0, 0, 10, 0, 0, 2, 10, 0, 0, 3] =
      some (.v4 10 0 0 2) ∧
    extract_dst_ip
        [69, 0, 0, 20, 0, 0, 0, 0, 64, 0, 0, 0, 10, 0, 0, 2, 10, 0, 0, 3] =
      some (.v4 10 0 0 3) ∧
    extract_src_ip [] = none ∧ extract_dst_ip [] = none := by
  refine ⟨?_, ?_, ?_, ?_⟩
  · exact ((c5_extract_ip_cases
      [69, 0, 0, 20, 0, 0, 0, 0, 64, 0, 0, 0, 10, 0, 0, 2, 10, 0, 0, 3]).1
      (by decide) (by decide)).1
  · exact ((c5_extract_ip_cases
      [69, 0, 0, 20, 0, 0, 0, 0, 64, 0, 0, 0, 10, 0, 0, 2, 10, 0, 0, 3]).1
      (by decide) (by decide)).2
  · exact ((c5_extract_ip_cases []).2.2 (by decide) (by decide)).1
  · exact ((c5_extract_ip_cases []).2.2 (by decide) (by decide)).2

/-- Lookup in the association-list model of `HashMap`: the value of the first
entry with the given key (`HashMap::get`). -/
def mapGet {α β : Type} [DecidableEq α] : List (α × β) → α → Option β
  | [], _ => none
  | p :: rest, k => if p.1 = k then some p.2 else mapGet rest k

/-- Key-membership in the association-list model of `HashMap`
(`HashMap::contains_key`). -/
def mapContains {α β : Type} [DecidableEq α] : List (α × β) → α → Bool
  | [], _ => false
  | p :: rest, k => if p.1 = k then true else mapContains rest k

/-- Insert in the association-list model of `HashMap` (`HashMap::insert`):
replace the value in place if the key is present, else append a new entry. -/
def mapInsert {α β : Type} [DecidableEq α] : List (α × β) → α → β → List (α × β)
  | [], k, v => [(k, v)]
  | p :: rest, k, v => if p.1 = k then (k, v) :: rest else p :: mapInsert rest k v

/-- Removal in the association-list model of `HashMap` (`HashMap::remove`):
drop the entries with the given key. -/
def mapRemove {α β : Type} [DecidableEq α] : List (α × β) → α → List (α × β)
  | [], _ => []
  | p :: rest, k => if p.1 = k then mapRemove rest k else p :: mapRemove rest k

lemma mapGet_mapInsert_self {α β : Type} [DecidableEq α]
    (l : List (α × β)) (k : α) (v : β) :
    mapGet (mapInsert l k v) k = some v := by
  induction l with
  | nil => simp [mapInsert, mapGet]
  | cons p rest ih =>
    by_cases hp : p.1 = k
    · simp [mapInsert, hp, mapGet]
    · simp [mapInsert, hp, mapGet, ih]

lemma mapGet_mapInsert_ne {α β : Type} [DecidableEq α]
    (l : List (α × β)) (k k' : α) (v : β) (hne : k' ≠ k) :
    mapGet (mapInsert l k v) k' = mapGet l k' := by
  have hk : ¬ k = k' := fun hc => hne hc.symm
  induction l with
  | nil => simp [mapInsert, mapGet, hk]
  | cons p rest ih =>
    by_cases hp : p.1 = k
    · simp [mapInsert, hp, mapGet, hk]
    · by_cases hq : p.1 = k'
      · simp [mapInsert, hp, hq, mapGet, hne]
      · simp [mapInsert, hp, hq, mapGet, ih]

lemma mapGet_mapRemove_self {α β : Type} [DecidableEq α]
    (l : List (α × β)) (k : α) :
    mapGet (mapRemove l k) k = none := by
  induction l with
  | nil => simp [mapRemove, mapGet]
  | cons p rest ih =>
    by_cases hp : p.1 = k
    · simp [mapRemove, hp, ih]
    · simp [mapRemove, hp, mapGet, ih]

lemma mapGet_mapRemove_ne {α β : Type} [DecidableEq α]
    (l : List (α × β)) (k k' : α) (hne : k' ≠ k) :
    mapGet (mapRemove l k) k' = mapGet l k' := by
  have hk : ¬ k = k' := fun hc => hne hc.symm
  induction l with
  | nil => simp [mapRemove]
  | cons p rest ih =>
    by_cases hp : p.1 = k
    · simp [mapRemove, hp, mapGet, hk, ih]
    · by_cases hq : p.1 = k'
      · simp [mapRemove, hp, hq, mapGet, hne]
      · simp [mapRemove, hp, hq, mapGet, ih]

lemma mapContains_eq_false_iff {α β : Type} [DecidableEq α]
    (l : List (α × β)) (k : α) :
    mapContains l k = false ↔ mapGet l k = none := by
  induction l with
  | nil => simp [mapContains, mapGet]
  | cons p rest ih =>
    by_cases hp : p.1 = k
    · simp [mapContains, mapGet, hp]
    · simp [mapContains, mapGet, hp, ih]

lemma mapInsert_length_of_not_contains {α β : Type} [DecidableEq α]
    (l : List (α × β)) (k : α) (v : β) (h : mapContains l k = false) :
    (mapInsert l k v).length = l.length + 1 := by
  induction l with
  | nil => simp [mapInsert]
  | cons p rest ih =>
    by_cases hp : p.1 = k
    · simp [mapContains, hp] at h
    · simp only [mapContains, hp, if_false] at h
      simp [mapInsert, hp, ih h]

lemma mapInsert_length_of_contains {α β : Type} [DecidableEq α]
    (l : List (α × β)) (k : α) (v : β) (h : mapContains l k = true) :
    (mapInsert l k v).length = l.length := by
  induction l with
  | nil => simp [mapContains] at h
  | cons p rest ih =>
    by_cases hp : p.1 = k
    · simp [mapInsert, hp]
    · simp only [mapContains, hp, if_false] at h
      simp [mapInsert, hp, ih h]

lemma mem_of_mapGet_eq_some {α β : Type} [DecidableEq α]
    (l : List (α × β)) (k : α) (v : β) (h : mapGet l k = some v) :
    (k, v) ∈ l := by
  induction l with
  | nil => simp [mapGet] at h
  | cons p rest ih =>
    by_cases hp : p.1 = k
    · rw [mapGet, if_pos hp] at h
      injection h with h
      have hpv : p = (k, v) := by
        obtain ⟨p1, p2⟩ := p
        simp only [Prod.mk.injEq]
        exact ⟨hp, h⟩
      rw [hpv]
      exact List.mem_cons_self _ _
    · rw [mapGet, if_neg hp] at h
      exact List.mem_cons_of_mem p (ih h)

/-- Per-client session record from `server.rs` (`struct Client`): the last
heartbeat timestamp in milliseconds and the optional learned virtual IP. -/
structure Client where
  last_heartbeat : Nat
  ip_addr : Option IpAddr
deriving DecidableEq, Repr

/-- `Client::new(addr)` at current time `now`: `last_heartbeat` is set to
`current_time_millis()` and `ip_addr` starts unset. -/
def Client.new (now : Nat) : Client := ⟨now, none⟩

/-- The shared state of `Server`: the session table
`clients : HashMap<SocketAddr, Client>` and the route table
`ip_to_addr : HashMap<IpAddr, SocketAddr>`. -/
structure ServerState where
  clients : List (SocketAddr × Client)
  ip_to_addr : List (IpAddr × SocketAddr)
deriving DecidableEq, Repr

/-- `Server::update_client_heartbeat` from `server.rs` with the current time
passed explicitly: if the client exists its `last_heartbeat` is set to now,
otherwise a fresh client is inserted.  The returned `Bool` records which
branch ran: `true` when a new session was created (the code logs the new
client there), `false` when an existing one was refreshed. -/
def update_client_heartbeat (st : ServerState) (addr : SocketAddr) (now : Nat) :
    Bool × ServerState :=
  match mapGet st.clients addr with
  | some c =>
    (false, { st with clients := mapInsert st.clients addr { c with last_heartbeat := now } })
  | none =>
    (true, { st with clients := mapInsert st.clients addr (Client.new now) })

/-- The `MessageType::Connect` arm of `Server::run` from `server.rs`: if the
sender is unknown a fresh `Client::new` is inserted; otherwise the table is
left as is (only a reconnect log line runs).  In both cases an encoded
`Connect` acknowledgement is sent back to the sender; the returned list holds
the `(destination, bytes)` sends the arm performs. -/
def handle_connect (st : ServerState) (addr : SocketAddr) (now : Nat) :
    ServerState × List (SocketAddr × List Nat) :=
  let st' :=
    if mapContains st.clients addr then st
    else { st with clients := mapInsert st.clients addr (Client.new now) }
  (st', [(addr, Message.connect.encode)])

/-- First critical section of `Server::remove_client` from `server.rs`
(the scope holding the `clients` lock): remove the session and hand back the
`ip_addr` it recorded, if any. -/
def remove_client_sessions (st : ServerState) (addr : SocketAddr) :
    Option IpAddr × ServerState :=
  match mapGet st.clients addr with
  | some c => (c.ip_addr, { st with clients := mapRemove st.clients addr })
  | none => (none, st)

/-- Second critical section of `Server::remove_client` from `server.rs`
(the scope holding the `ip_to_addr` lock): if the removed session recorded a
virtual IP, remove the route entry for that IP unconditionally
(`ip_map.remove(&ip)`). -/
def remove_client_routes (st : ServerState) (client_ip : Option IpAddr) :
    ServerState :=
  match client_ip with
  | some ip => { st with ip_to_addr := mapRemove st.ip_to_addr ip }
  | none => st

/-- `Server::remove_client` from `server.rs`: the two critical sections run
in sequence. -/
def remove_client (st : ServerState) (addr : SocketAddr) : ServerState :=
  let r := remove_client_sessions st addr
  remove_client_routes r.2 r.1

/-- `Server::update_ip_mapping` from `server.rs`: under the `clients` lock,
set the client's `ip_addr` to the extracted source IP (the code writes it only
when it differs, which yields the same table); then, under the `ip_to_addr`
lock, insert `ip -> addr`, overwriting any previous owner. -/
def update_ip_mapping (st : ServerState) (addr : SocketAddr) (ip : IpAddr) :
    ServerState :=
  let clients' :=
    match mapGet st.clients addr with
    | some c => mapInsert st.clients addr { c with ip_addr := some ip }
    | none => st.clients
  { clients := clients', ip_to_addr := mapInsert st.ip_to_addr ip addr }

/-- The expiry test of `spawn_heartbeat_checker` from `server.rs`:
`now - last_heartbeat > timeout && last_heartbeat > 0`, with the `u64`
subtraction modelled on `Nat` (they agree whenever
`last_heartbeat ≤ now`; see the checked variant below). -/
def expired (now timeout : Nat) (p : SocketAddr × Client) : Bool :=
  decide (timeout < now - p.2.last_heartbeat) && decide (0 < p.2.last_heartbeat)

/-- `clients_to_remove` of one tick of `spawn_heartbeat_checker`: the keys of
the sessions the scan finds expired. -/
def clients_to_remove (clients : List (SocketAddr × Client)) (now timeout : Nat) :
    List SocketAddr :=
  (clients.filter (expired now timeout)).map Prod.fst

/-- `ips_to_remove` of one tick of `spawn_heartbeat_checker`: the virtual IPs
recorded by the sessions the scan finds expired. -/
def ips_to_remove (clients : List (SocketAddr × Client)) (now timeout : Nat) :
    List IpAddr :=
  (clients.filter (expired now timeout)).filterMap fun p => p.2.ip_addr

/-- One tick of `spawn_heartbeat_checker` from `server.rs` (the
`sweep_expired` operation of the spec): scan the session table for expired
sessions, then remove those sessions and the route entries for their recorded
virtual IPs; returns the removed endpoints with the new state. -/
def sweep_expired (st : ServerState) (now timeout : Nat) :
    List SocketAddr × ServerState :=
  let addrs := clients_to_remove st.clients now timeout
  let ips := ips_to_remove st.clients now timeout
  (addrs,
    { clients := addrs.foldl (fun l a => mapRemove l a) st.clients,
      ip_to_addr := ips.foldl (fun l i => mapRemove l i) st.ip_to_addr })

/-- Checked `u64` subtraction: `a - b` panics in the source whenever
`b > a`, modelled as `none`. -/
def checked_sub (a b : Nat) : Option Nat :=
  if b ≤ a then some (a - b) else none

/-- The scan of one `spawn_heartbeat_checker` tick with the `u64` subtraction
`now - client.last_heartbeat` kept checked: `none` models the panic on
underflow, `some` carries the `(clients_to_remove, ips_to_remove)` pair. -/
def sweep_scan_checked (clients : List (SocketAddr × Client)) (now timeout : Nat) :
    Option (List SocketAddr × List IpAddr) :=
  match clients with
  | [] => some ([], [])
  | (addr, c) :: rest =>
    match checked_sub now c.last_heartbeat with
    | none => none
    | some d =>
      match sweep_scan_checked rest now timeout with
      | none => none
      | some (as, is) =>
        if timeout < d ∧ 0 < c.last_heartbeat then
          (addr :: as, match c.ip_addr with | some ip => ip :: is | none => is)
        else (as, is)

/-- One iteration of the TUN-reader loop of `spawn_tun_reader` from
`server.rs`, for one packet read from the interface: the packet is encoded as
a `Data` message; if a destination IP is extracted and the route table has an
entry for it, the encoded message is sent to that endpoint, else nothing is
sent.  The result is the single send performed, if any. -/
def tun_reader_step (ip_to_addr : List (IpAddr × SocketAddr)) (packet : List Nat) :
    Option (SocketAddr × List Nat) :=
  let encoded := (Message.data packet).encode
  match extract_dst_ip packet with
  | some dst_ip =>
    match mapGet ip_to_addr dst_ip with
    | some dst_addr => some (dst_addr, encoded)
    | none => none
  | none => none

lemma mapContains_eq_true_of_mapGet {α β : Type} [DecidableEq α]
    (l : List (α × β)) (k : α) (v : β) (h : mapGet l k = some v) :
    mapContains l k = true := by
  cases hc : mapContains l k with
  | false => rw [mapContains_eq_false_iff] at hc; rw [hc] at h; cases h
  | true => rfl

/-- C1 counterexample: endpoint 0 first claims virtual IP 10.0.0.2, then
endpoint 1 claims the same IP (migration), so the route points at 1; the
claim says `remove_client 0` leaves that route at 1, but the code deletes it:
the route table entry for the IP is gone afterwards. -/
theorem c1_route_preserved_cex :
    mapGet (update_ip_mapping
        (update_ip_mapping ⟨[(0, Client.new 5), (1, Client.new 6)], []⟩
          0 (IpAddr.v4 10 0 0 2))
        1 (IpAddr.v4 10 0 0 2)).ip_to_addr (IpAddr.v4 10 0 0 2) = some 1 ∧
    mapGet (remove_client
        (update_ip_mapping
          (update_ip_mapping ⟨[(0, Client.new 5), (1, Client.new 6)], []⟩
            0 (IpAddr.v4 10 0 0 2))
          1 (IpAddr.v4 10 0 0 2)) 0).ip_to_addr (IpAddr.v4 10 0 0 2) ≠ some 1 := by
  decide

/-- C1 amended: `remove_client` removes the endpoint's session and, whenever
that session records a virtual IP, removes the route table entry for that IP
unconditionally — even when a later `update_ip_mapping` has made the route
point at a different endpoint — because the code never compares the route
entry with the endpoint being removed. -/
theorem c1_remove_deletes_route (st : ServerState) (addr : SocketAddr)
    (c : Client) (ip : IpAddr) (hc : mapGet st.clients addr = some c)
    (hip : c.ip_addr = some ip) :
    mapGet (remove_client st addr).clients addr = none ∧
    mapGet (remove_client st addr).ip_to_addr ip = none := by
  simp only [remove_client, remove_client_sessions, hc, hip, remove_client_routes]
  exact ⟨mapGet_mapRemove_self _ _, mapGet_mapRemove_self _ _⟩

/-- Witness for C1 amended at a concrete state. -/
theorem c1_remove_deletes_route_witness :
    mapGet (remove_client
        ⟨[(4, ⟨9, some (IpAddr.v4 192 168 0 1)⟩)],
         [(IpAddr.v4 192 168 0 1, 8)]⟩ 4).clients 4 = none ∧
    mapGet (remove_client
        ⟨[(4, ⟨9, some (IpAddr.v4 192 168 0 1)⟩)],
         [(IpAddr.v4 192 168 0 1, 8)]⟩ 4).ip_to_addr (IpAddr.v4 192 168 0 1) = none :=
  c1_remove_deletes_route
    ⟨[(4, ⟨9, some (IpAddr.v4 192 168 0 1)⟩)], [(IpAddr.v4 192 168 0 1, 8)]⟩
    4 ⟨9, some (IpAddr.v4 192 168 0 1)⟩ (IpAddr.v4 192 168 0 1) (by decide) rfl

/-- C2 counterexample: a known endpoint 0 with `last_heartbeat = 5` sends
`Connect` at time 100; the claim says the session's `last_heartbeat` is
refreshed, but the Connect arm leaves the state completely unchanged, so it
is still 5 and not 100. -/
theorem c2_connect_refresh_cex :
    (handle_connect ⟨[(0, ⟨5, none⟩)], []⟩ 0 100).1 =
      (⟨[(0, ⟨5, none⟩)], []⟩ : ServerState) ∧
    mapGet (handle_connect ⟨[(0, ⟨5, none⟩)], []⟩ 0 100).1.clients 0 ≠
      some ⟨100, none⟩ := by
  constructor
  · rfl
  · decide

/-- C2 amended: when the hub receives `Connect` from an endpoint that already
has a session, no state changes at all — in particular `last_heartbeat` is
not refreshed — and an encoded `Connect` acknowledgement is sent back to the
sender. -/
theorem c2_connect_known_noop (st : ServerState) (addr : SocketAddr) (now : Nat)
    (h : mapContains st.clients addr = true) :
    handle_connect st addr now = (st, [(addr, Message.connect.encode)]) := by
  simp [handle_connect, h]

/-- Witness for C2 amended at a concrete state. -/
theorem c2_connect_known_noop_witness :
    handle_connect ⟨[(7, ⟨3, none⟩)], []⟩ 7 50 =
      ((⟨[(7, ⟨3, none⟩)], []⟩ : ServerState), [(7, Message.connect.encode)]) :=
  c2_connect_known_noop ⟨[(7, ⟨3, none⟩)], []⟩ 7 50 (by decide)

/-- C7: `touch` (`update_client_heartbeat`) on an endpoint with no session
creates one, reports it new, and sets its `last_heartbeat` to the current
time; a second `touch` at a later time reports it not new, updates
`last_heartbeat` to the later value, and leaves the session count and every
other session unchanged. -/
theorem c7_touch_lifecycle (st : ServerState) (addr : SocketAddr) (t1 t2 : Nat)
    (hnone : mapGet st.clients addr = none) (hlt : t1 < t2) :
    (update_client_heartbeat st addr t1).1 = true ∧
    mapGet (update_client_heartbeat st addr t1).2.clients addr = some ⟨t1, none⟩ ∧
    (update_client_heartbeat (update_client_heartbeat st addr t1).2 addr t2).1 = false ∧
    mapGet (update_client_heartbeat
        (update_client_heartbeat st addr t1).2 addr t2).2.clients addr =
      some ⟨t2, none⟩ ∧
    t1 < t2 ∧
    (update_client_heartbeat
        (update_client_heartbeat st addr t1).2 addr t2).2.clients.length =
      (update_client_heartbeat st addr t1).2.clients.length ∧
    (∀ a : SocketAddr, a ≠ addr →
      mapGet (update_client_heartbeat
          (update_client_heartbeat st addr t1).2 addr t2).2.clients a =
        mapGet (update_client_heartbeat st addr t1).2.clients a) := by
  have h1 : update_client_heartbeat st addr t1 =
      (true, { st with clients := mapInsert st.clients addr (Client.new t1) }) := by
    rw [update_client_heartbeat, hnone]
  have hget1 : mapGet (mapInsert st.clients addr (Client.new t1)) addr =
      some (Client.new t1) := mapGet_mapInsert_self _ _ _
  have h2 : update_client_heartbeat (update_client_heartbeat st addr t1).2 addr t2 =
      (false, { st with
        clients := mapInsert (mapInsert st.clients addr (Client.new t1)) addr
          ⟨t2, none⟩ }) := by
    rw [h1, update_client_heartbeat]
    simp only [hget1]
    rfl
  refine ⟨by rw [h1], by rw [h1]; exact hget1, by rw [h2], ?_, hlt, ?_, ?_⟩
  · rw [h2]
    exact mapGet_mapInsert_self _ _ _
  · rw [h2, h1]
    exact mapInsert_length_of_contains _ _ _
      (mapContains_eq_true_of_mapGet _ _ _ hget1)
  · intro a ha
    rw [h2, h1]
    exact mapGet_mapInsert_ne _ _ _ _ ha

/-- Witness for C7 at a concrete state and times. -/
theorem c7_touch_lifecycle_witness :
    (update_client_heartbeat ⟨[(1, ⟨4, none⟩)], []⟩ 2 10).1 = true ∧
    mapGet (update_client_heartbeat ⟨[(1, ⟨4, none⟩)], []⟩ 2 10).2.clients 2 =
      some ⟨10, none⟩ ∧
    (update_client_heartbeat
      (update_client_heartbeat ⟨[(1, ⟨4, none⟩)], []⟩ 2 10).2 2 11).1 = false ∧
    mapGet (update_client_heartbeat
        (update_client_heartbeat ⟨[(1, ⟨4, none⟩)], []⟩ 2 10).2 2 11).2.clients 2 =
      some ⟨11, none⟩ ∧
    (10 : Nat) < 11 ∧
    (update_client_heartbeat
        (update_client_heartbeat ⟨[(1, ⟨4, none⟩)], []⟩ 2 10).2 2 11).2.clients.length =
      (update_client_heartbeat ⟨[(1, ⟨4, none⟩)], []⟩ 2 10).2.clients.length ∧
    (∀ a : SocketAddr, a ≠ 2 →
      mapGet (update_client_heartbeat
          (update_client_heartbeat ⟨[(1, ⟨4, none⟩)], []⟩ 2 10).2 2 11).2.clients a =
        mapGet (update_client_heartbeat ⟨[(1, ⟨4, none⟩)], []⟩ 2 10).2.clients a) :=
  c7_touch_lifecycle ⟨[(1, ⟨4, none⟩)], []⟩ 2 10 11 (by decide) (by decide)

/-- C8: for every packet read from the interface, if a destination IP is
extracted and the route table maps it to an endpoint, the encoded `Data`
message is sent to exactly that endpoint; if no destination is extractable or
no route exists, nothing is sent at all (no error, no broadcast). -/
theorem c8_tun_forwarding (routes : List (IpAddr × SocketAddr)) (packet : List Nat) :
    (∀ ip : IpAddr, ∀ a : SocketAddr,
      extract_dst_ip packet = some ip → mapGet routes ip = some a →
      tun_reader_step routes packet = some (a, (Message.data packet).encode)) ∧
    (∀ ip : IpAddr, extract_dst_ip packet = some ip → mapGet routes ip = none →
      tun_reader_step routes packet = none) ∧
    (extract_dst_ip packet = none → tun_reader_step routes packet = none) := by
  refine ⟨fun ip a hdst hroute => ?_, fun ip hdst hroute => ?_, fun hdst => ?_⟩ <;>
    rw [tun_reader_step]
  · rw [hdst]
    simp only [hroute]
  · rw [hdst]
    simp only [hroute]
  · rw [hdst]

/-- Witness for C8: a concrete IPv4 packet destined to 10.0.0.3, routed to
endpoint 1. -/
theorem c8_tun_forwarding_witness :
    tun_reader_step [(IpAddr.v4 10 0 0 3, 1)]
        [69, 0, 0, 20, 0, 0, 0, 0, 64, 0, 0, 0, 10, 0, 0, 2, 10, 0, 0, 3] =
      some (1, (Message.data
        [69, 0, 0, 20, 0, 0, 0, 0, 64, 0, 0, 0, 10, 0, 0, 2, 10, 0, 0, 3]).encode) :=
  (c8_tun_forwarding [(IpAddr.v4 10 0 0 3, 1)]
      [69, 0, 0, 20, 0, 0, 0, 0, 64, 0, 0, 0, 10, 0, 0, 2, 10, 0, 0, 3]).1
    (IpAddr.v4 10 0 0 3) 1 (by decide) (by decide)

/-- C9 counterexample: a state where session 0 owns IP 10.0.0.2 and the route
points at 0.  After the first critical section of `remove_client` (the
`clients` lock scope) and before the second (the `ip_to_addr` lock scope),
the session is gone while the route still points at the removed endpoint — an
interleaved task locking `ip_to_addr` at that suspension point observes
exactly the partial update the claim says no interleaving can observe. -/
theorem c9_atomicity_cex :
    mapGet (remove_client_sessions
        ⟨[(0, ⟨5, some (IpAddr.v4 10 0 0 2)⟩)], [(IpAddr.v4 10 0 0 2, 0)]⟩
        0).2.clients 0 = none ∧
    mapGet (remove_client_sessions
        ⟨[(0, ⟨5, some (IpAddr.v4 10 0 0 2)⟩)], [(IpAddr.v4 10 0 0 2, 0)]⟩
        0).2.ip_to_addr (IpAddr.v4 10 0 0 2) = some 0 := by
  decide

/-- C9 amended: each single-table lock scope is atomic, but `remove_client`
spans two separate critical sections (`clients` first, `ip_to_addr` second),
so in every state where the removed endpoint's session records a virtual IP
whose route points back at it, the state between the two sections has the
session removed while the stale route still points at the removed endpoint;
a concurrent task can run there and observe the partial update. -/
theorem c9_remove_partial_observable (st : ServerState) (addr : SocketAddr)
    (c : Client) (ip : IpAddr) (hc : mapGet st.clients addr = some c)
    (hip : c.ip_addr = some ip) (hroute : mapGet st.ip_to_addr ip = some addr) :
    mapGet (remove_client_sessions st addr).2.clients addr = none ∧
    mapGet (remove_client_sessions st addr).2.ip_to_addr ip = some addr := by
  simp only [remove_client_sessions, hc]
  exact ⟨mapGet_mapRemove_self _ _, hroute⟩

/-- Witness for C9 amended at a concrete state. -/
theorem c9_remove_partial_observable_witness :
    mapGet (remove_client_sessions
        ⟨[(3, ⟨7, some (IpAddr.v4 10 0 0 9)⟩)], [(IpAddr.v4 10 0 0 9, 3)]⟩
        3).2.clients 3 = none ∧
    mapGet (remove_client_sessions
        ⟨[(3, ⟨7, some (IpAddr.v4 10 0 0 9)⟩)], [(IpAddr.v4 10 0 0 9, 3)]⟩
        3).2.ip_to_addr (IpAddr.v4 10 0 0 9) = some 3 :=
  c9_remove_partial_observable
    ⟨[(3, ⟨7, some (IpAddr.v4 10 0 0 9)⟩)], [(IpAddr.v4 10 0 0 9, 3)]⟩
    3 ⟨7, some (IpAddr.v4 10 0 0 9)⟩ (IpAddr.v4 10 0 0 9)
    (by decide) rfl (by decide)

lemma sweep_scan_checked_eq_some (clients : List (SocketAddr × Client))
    (now timeout : Nat) (h : ∀ p ∈ clients, p.2.last_heartbeat ≤ now) :
    sweep_scan_checked clients now timeout =
      some (clients_to_remove clients now timeout,
            ips_to_remove clients now timeout) := by
  induction clients with
  | nil => rfl
  | cons p rest ih =>
    obtain ⟨addr, c⟩ := p
    have hhead : c.last_heartbeat ≤ now := h (addr, c) (List.mem_cons_self _ _)
    have hrest : ∀ q ∈ rest, q.2.last_heartbeat ≤ now :=
      fun q hq => h q (List.mem_cons_of_mem _ hq)
    simp only [sweep_scan_checked, checked_sub, if_pos hhead, ih hrest]
    by_cases hcond : timeout < now - c.last_heartbeat ∧ 0 < c.last_heartbeat
    · have hexp : expired now timeout (addr, c) = true := by
        simp [expired, hcond.1, hcond.2]
      cases hip : c.ip_addr with
      | some ip =>
        simp [clients_to_remove, ips_to_remove, List.filter_cons, hexp, hcond, hip]
      | none =>
        simp [clients_to_remove, ips_to_remove, List.filter_cons, hexp, hcond, hip]
    · have hexp : expired now timeout (addr, c) = false := by
        rcases not_and_or.mp hcond with hx | hx <;> simp [expired, hx]
      simp [clients_to_remove, ips_to_remove, List.filter_cons, hexp, hcond]

lemma sweep_scan_checked_eq_none (clients : List (SocketAddr × Client))
    (now timeout : Nat) (h : ∃ p ∈ clients, now < p.2.last_heartbeat) :
    sweep_scan_checked clients now timeout = none := by
  induction clients with
  | nil => simp at h
  | cons p rest ih =>
    obtain ⟨addr, c⟩ := p
    by_cases hhead : c.last_heartbeat ≤ now
    · have hr : ∃ q ∈ rest, now < q.2.last_heartbeat := by
        rcases h with ⟨q, hq, hlt⟩
        rcases List.mem_cons.mp hq with rfl | hq'
        · exact absurd hlt (not_lt.mpr hhead)
        · exact ⟨q, hq', hlt⟩
      simp only [sweep_scan_checked, checked_sub, if_pos hhead, ih hr]
    · simp only [sweep_scan_checked, checked_sub, if_neg hhead]

/-- C10: one scan of the liveness sweep computes `now - last_heartbeat` as an
unguarded `u64` subtraction, so the scan is panic-free exactly when every
session's `last_heartbeat` is at most `now`; under that precondition the
checked scan agrees with the unchecked eviction behaviour
(`clients_to_remove`, `ips_to_remove`). -/
theorem c10_sweep_panic_free (clients : List (SocketAddr × Client))
    (now timeout : Nat) :
    ((sweep_scan_checked clients now timeout).isSome = true ↔
      ∀ p ∈ clients, p.2.last_heartbeat ≤ now) ∧
    ((∀ p ∈ clients, p.2.last_heartbeat ≤ now) →
      sweep_scan_checked clients now timeout =
        some (clients_to_remove clients now timeout,
              ips_to_remove clients now timeout)) := by
  constructor
  · constructor
    · intro hs
      by_contra hc
      push_neg at hc
      obtain ⟨p, hp, hlt⟩ := hc
      rw [sweep_scan_checked_eq_none clients now timeout ⟨p, hp, hlt⟩] at hs
      simp at hs
    · intro h
      rw [sweep_scan_checked_eq_some clients now timeout h]
      rfl
  · exact sweep_scan_checked_eq_some clients now timeout

/-- Witness for C10: a session last touched at 5 scanned at time 100 with
timeout 30 is evicted without panic, together with its virtual IP. -/
theorem c10_sweep_panic_free_witness :
    sweep_scan_checked [(0, ⟨5, some (IpAddr.v4 10 0 0 2)⟩)] 100 30 =
      some ([0], [IpAddr.v4 10 0 0 2]) := by
  rw [(c10_sweep_panic_free [(0, ⟨5, some (IpAddr.v4 10 0 0 2)⟩)] 100 30).2
    (by decide)]
  rfl

lemma mapRemove_eq_filter {α β : Type} [DecidableEq α] (l : List (α × β)) (k : α) :
    mapRemove l k = l.filter fun p => !decide (p.1 = k) := by
  induction l with
  | nil => rfl
  | cons p rest ih =>
    by_cases hp : p.1 = k <;> simp [mapRemove, List.filter_cons, hp, ih]

lemma foldl_mapRemove_eq_filter {α β : Type} [DecidableEq α]
    (ks : List α) (l : List (α × β)) :
    ks.foldl (fun acc a => mapRemove acc a) l =
      l.filter fun p => !decide (p.1 ∈ ks) := by
  induction ks generalizing l with
  | nil => simp
  | cons k ks ih =>
    rw [List.foldl_cons, ih, mapRemove_eq_filter, List.filter_filter]
    refine List.filter_congr fun p hp => ?_
    by_cases hk : p.1 = k <;> by_cases hks : p.1 ∈ ks <;>
      simp [List.mem_cons, hk, hks]

lemma mapGet_filter_keys_of_mem {α β : Type} [DecidableEq α]
    (l : List (α × β)) (ks : List α) (a : α) (ha : a ∈ ks) :
    mapGet (l.filter fun p => !decide (p.1 ∈ ks)) a = none := by
  induction l with
  | nil => rfl
  | cons p rest ih =>
    by_cases hp : p.1 ∈ ks
    · simpa [List.filter_cons, hp] using ih
    · have hpa : ¬ p.1 = a := fun hc => hp (hc ▸ ha)
      simpa [List.filter_cons, hp, mapGet, hpa] using ih

lemma mapGet_filter_keys_of_not_mem {α β : Type} [DecidableEq α]
    (l : List (α × β)) (ks : List α) (a : α) (ha : a ∉ ks) :
    mapGet (l.filter fun p => !decide (p.1 ∈ ks)) a = mapGet l a := by
  induction l with
  | nil => rfl
  | cons p rest ih =>
    by_cases hpa : p.1 = a
    · have hp : ¬ p.1 ∈ ks := fun hc => ha (hpa ▸ hc)
      simp [List.filter_cons, hp, mapGet, hpa, ha]
    · by_cases hp : p.1 ∈ ks
      · simpa [List.filter_cons, hp, mapGet, hpa] using ih
      · simpa [List.filter_cons, hp, mapGet, hpa] using ih

lemma eq_of_mem_nodup_keys {α β : Type} [DecidableEq α]
    {l : List (α × β)} (hnd : (l.map Prod.fst).Nodup)
    {p q : α × β} (hp : p ∈ l) (hq : q ∈ l) (hk : p.1 = q.1) : p = q := by
  induction l with
  | nil => cases hp
  | cons r rest ih =>
    rw [List.map_cons, List.nodup_cons] at hnd
    rcases List.mem_cons.mp hp with rfl | hp'
    · rcases List.mem_cons.mp hq with rfl | hq'
      · rfl
      · have hm : q.1 ∈ rest.map Prod.fst := List.mem_map_of_mem _ hq'
        rw [← hk] at hm
        exact absurd hm hnd.1
    · rcases List.mem_cons.mp hq with rfl | hq'
      · have hm : p.1 ∈ rest.map Prod.fst := List.mem_map_of_mem _ hp'
        rw [hk] at hm
        exact absurd hm hnd.1
      · exact ih hnd.2 hp' hq'

lemma mem_clients_to_remove_iff (clients : List (SocketAddr × Client))
    (now timeout : Nat) (hnd : (clients.map Prod.fst).Nodup)
    {p : SocketAddr × Client} (hp : p ∈ clients) :
    p.1 ∈ clients_to_remove clients now timeout ↔
      expired now timeout p = true := by
  constructor
  · intro h
    obtain ⟨q, hql, hqk⟩ := List.mem_map.mp h
    have hqm := List.mem_filter.mp hql
    have hqp : q = p := eq_of_mem_nodup_keys hnd hqm.1 hp hqk
    rw [← hqp]
    exact hqm.2
  · intro h
    exact List.mem_map_of_mem _ (List.mem_filter.mpr ⟨hp, h⟩)

lemma mem_ips_to_remove_of (clients : List (SocketAddr × Client))
    (now timeout : Nat) {addr : SocketAddr} {c : Client} {ip : IpAddr}
    (hm : (addr, c) ∈ clients) (hexp : expired now timeout (addr, c) = true)
    (hip : c.ip_addr = some ip) :
    ip ∈ ips_to_remove clients now timeout :=
  List.mem_filterMap.mpr ⟨(addr, c), List.mem_filter.mpr ⟨hm, hexp⟩, hip⟩

/-- C6: one sweep tick removes exactly the sessions with
`now - last_heartbeat > timeout` and `last_heartbeat > 0`, together with the
route entries for the virtual IPs those sessions record, and no others (the
hypotheses are the map invariant that session keys are distinct and the C10
precondition that no `last_heartbeat` exceeds `now`); in particular a session
touched at `T` is removed, with the route for its IP, at
`now = T + timeout + 1`, is not removed at `now = T + timeout - 1`, and a
session whose `last_heartbeat` is the never-set sentinel 0 is never
removed. -/
theorem c6_sweep_expired_exact :
    (∀ st : ServerState, ∀ now timeout : Nat,
      (st.clients.map Prod.fst).Nodup →
      (∀ p ∈ st.clients, p.2.last_heartbeat ≤ now) →
      (sweep_expired st now timeout).1 = clients_to_remove st.clients now timeout ∧
      (sweep_expired st now timeout).2.clients =
        st.clients.filter (fun p => !(expired now timeout p)) ∧
      (sweep_expired st now timeout).2.ip_to_addr =
        st.ip_to_addr.filter
          (fun q => !decide (q.1 ∈ ips_to_remove st.clients now timeout))) ∧
    (∀ st : ServerState, ∀ addr : SocketAddr, ∀ c : Client, ∀ timeout : Nat,
      mapGet st.clients addr = some c → 0 < c.last_heartbeat →
      mapGet (sweep_expired st (c.last_heartbeat + timeout + 1)
          timeout).2.clients addr = none ∧
      (∀ ip : IpAddr, c.ip_addr = some ip →
        mapGet (sweep_expired st (c.last_heartbeat + timeout + 1)
            timeout).2.ip_to_addr ip = none)) ∧
    (∀ st : ServerState, ∀ addr : SocketAddr, ∀ c : Client, ∀ timeout : Nat,
      (st.clients.map Prod.fst).Nodup →
      mapGet st.clients addr = some c → 1 ≤ timeout →
      mapGet (sweep_expired st (c.last_heartbeat + timeout - 1)
          timeout).2.clients addr = some c) ∧
    (∀ st : ServerState, ∀ addr : SocketAddr, ∀ c : Client, ∀ now timeout : Nat,
      (st.clients.map Prod.fst).Nodup →
      mapGet st.clients addr = some c → c.last_heartbeat = 0 →
      mapGet (sweep_expired st now timeout).2.clients addr = some c) := by
  refine ⟨?_, ?_, ?_, ?_⟩
  · intro st now timeout hnd _hle
    refine ⟨rfl, ?_, ?_⟩
    · show (clients_to_remove st.clients now timeout).foldl
          (fun l a => mapRemove l a) st.clients = _
      rw [foldl_mapRemove_eq_filter]
      refine List.filter_congr fun p hp => ?_
      have hmem := mem_clients_to_remove_iff st.clients now timeout hnd hp
      have hd : decide (p.1 ∈ clients_to_remove st.clients now timeout) =
          expired now timeout p := by
        cases hexp : expired now timeout p with
        | true => exact decide_eq_true (hmem.mpr hexp)
        | false =>
          refine decide_eq_false fun hc => ?_
          exact Bool.noConfusion (hexp ▸ hmem.mp hc)
      rw [hd]
    · show (ips_to_remove st.clients now timeout).foldl
          (fun l a => mapRemove l a) st.ip_to_addr = _
      rw [foldl_mapRemove_eq_filter]
  · intro st addr c timeout hc h0
    have hm : (addr, c) ∈ st.clients := mem_of_mapGet_eq_some _ _ _ hc
    have hexp : expired (c.last_heartbeat + timeout + 1) timeout (addr, c) = true := by
      simp only [expired, Bool.and_eq_true, decide_eq_true_eq]
      omega
    constructor
    · show mapGet ((clients_to_remove st.clients _ _).foldl
          (fun l a => mapRemove l a) st.clients) addr = none
      rw [foldl_mapRemove_eq_filter]
      exact mapGet_filter_keys_of_mem _ _ _
        (List.mem_map_of_mem _ (List.mem_filter.mpr ⟨hm, hexp⟩))
    · intro ip hip
      show mapGet ((ips_to_remove st.clients _ _).foldl
          (fun l a => mapRemove l a) st.ip_to_addr) ip = none
      rw [foldl_mapRemove_eq_filter]
      exact mapGet_filter_keys_of_mem _ _ _
        (mem_ips_to_remove_of st.clients _ _ hm hexp hip)
  · intro st addr c timeout hnd hc ht
    have hm : (addr, c) ∈ st.clients := mem_of_mapGet_eq_some _ _ _ hc
    have hexp : expired (c.last_heartbeat + timeout - 1) timeout (addr, c) = false := by
      have hx : ¬ timeout <
          (c.last_heartbeat + timeout - 1) - c.last_heartbeat := by omega
      simp [expired, hx]
    have hnotin : addr ∉ clients_to_remove st.clients
        (c.last_heartbeat + timeout - 1) timeout := fun hin =>
      Bool.noConfusion (hexp ▸
        (mem_clients_to_remove_iff st.clients _ _ hnd hm).mp hin)
    show mapGet ((clients_to_remove st.clients _ _).foldl
        (fun l a => mapRemove l a) st.clients) addr = some c
    rw [foldl_mapRemove_eq_filter]
    rw [mapGet_filter_keys_of_not_mem _ _ _ hnotin]
    exact hc
  · intro st addr c now timeout hnd hc h0
    have hm : (addr, c) ∈ st.clients := mem_of_mapGet_eq_some _ _ _ hc
    have hexp : expired now timeout (addr, c) = false := by
      simp [expired, h0]
    have hnotin : addr ∉ clients_to_remove st.clients now timeout := fun hin =>
      Bool.noConfusion (hexp ▸
        (mem_clients_to_remove_iff st.clients _ _ hnd hm).mp hin)
    show mapGet ((clients_to_remove st.clients _ _).foldl
        (fun l a => mapRemove l a) st.clients) addr = some c
    rw [foldl_mapRemove_eq_filter]
    rw [mapGet_filter_keys_of_not_mem _ _ _ hnotin]
    exact hc

/-- Witness for C6: at time 40 with timeout 30, the session touched at 5 is
evicted with its route while the session touched at 40 survives; the
sentinel case is exercised on a session with `last_heartbeat = 0`. -/
theorem c6_sweep_expired_exact_witness :
    (sweep_expired ⟨[(0, ⟨5, some (IpAddr.v4 10 0 0 2)⟩), (1, ⟨40, none⟩)],
        [(IpAddr.v4 10 0 0 2, 0)]⟩ 40 30).2.clients = [(1, ⟨40, none⟩)] ∧
    (sweep_expired ⟨[(0, ⟨5, some (IpAddr.v4 10 0 0 2)⟩), (1, ⟨40, none⟩)],
        [(IpAddr.v4 10 0 0 2, 0)]⟩ 40 30).2.ip_to_addr = [] ∧
    mapGet (sweep_expired ⟨[(2, ⟨0, none⟩)], []⟩ 1000 30).2.clients 2 =
      some ⟨0, none⟩ := by
  have h := c6_sweep_expired_exact.1
    ⟨[(0, ⟨5, some (IpAddr.v4 10 0 0 2)⟩), (1, ⟨40, none⟩)],
     [(IpAddr.v4 10 0 0 2, 0)]⟩ 40 30 (by decide) (by decide)
  have h4 := c6_sweep_expired_exact.2.2.2
    ⟨[(2, ⟨0, none⟩)], []⟩ 2 ⟨0, none⟩ 1000 30 (by decide) (by decide) rfl
  exact ⟨h.2.1.trans (by decide), h.2.2.trans (by decide), h4⟩

end Vswitch
